import Mathlib

/-!
Verification development for the FITS binary-table toolkit
(cds-astro/cds-fitstable-rust).

Shallow embedding conventions:
* a Rust byte (u8) is a Nat assumed < 256 where it matters;
* machine integers are Nat/Int with explicit `% 2^w` where overflow matters;
* Rust f32/f64 values that are only stored and compared for equality with
  literals (TSCAL/TZERO) are modeled as Rat; the lossy `as f32` / `as f64`
  casts are modeled as the identity on Rat since no settled property
  depends on rounding;
* fallible code returns Option/Except; a Rust panic (slice out of bounds,
  todo) is an explicit outcome constructor.
-/

namespace FitsTable

/-! ### Two's-complement views of big-endian storage --------------------
Helpers interpreting a Nat < 2^w as a signed integer, and the
`to_u16`-family of wrapping conversions from
src/hdu/xtension/bintable/read/bytes.rs. -/

/-- Interpret a Nat < 2^8 as an i8. -/
def toI8 (n : Nat) : Int :=
  if n < 128 then (n : Int) else (n : Int) - 256

/-- Interpret a Nat < 2^16 as an i16. -/
def toI16 (n : Nat) : Int :=
  if n < 32768 then (n : Int) else (n : Int) - 65536

/-- Interpret a Nat < 2^32 as an i32. -/
def toI32 (n : Nat) : Int :=
  if n < 2147483648 then (n : Int) else (n : Int) - 4294967296

/-- Interpret a Nat < 2^64 as an i64. -/
def toI64 (n : Nat) : Int :=
  if n < 9223372036854775808 then (n : Int) else (n : Int) - 18446744073709551616

/-- Low 16 bits of an Int, as a Nat (the Rust cast i16 -> u16). -/
def intAsU16 (v : Int) : Nat := (v % 65536).toNat

/-- Low 32 bits of an Int, as a Nat (the Rust cast i32 -> u32). -/
def intAsU32 (v : Int) : Nat := (v % 4294967296).toNat

/-- Low 64 bits of an Int, as a Nat (the Rust cast i64 -> u64). -/
def intAsU64 (v : Int) : Nat := (v % 18446744073709551616).toNat

/-- Low 8 bits of an Int, as a Nat (the Rust cast i64 -> u8). -/
def intAsU8 (v : Int) : Nat := (v % 256).toNat

/-- Low 16 bits of an Int re-read as an i16 (the Rust cast i64 -> i16). -/
def intAsI16 (v : Int) : Int := toI16 (intAsU16 v)

/-- Low 32 bits of an Int re-read as an i32 (the Rust cast i64 -> i32). -/
def intAsI32 (v : Int) : Int := toI32 (intAsU32 v)

/-- bytes.rs: to_i8(v: u8) = (-128_i8).wrapping_add(v as i8).
The wrapping sum in i8 of -128 and v equals the two's-complement reading
of (128 + v) mod 256. -/
def to_i8 (v : Nat) : Int := toI8 ((128 + v) % 256)

/-- bytes.rs: to_u16(v: i16) = 32768_u16.wrapping_add(v as u16). -/
def to_u16 (v : Int) : Nat := (32768 + intAsU16 v) % 65536

/-- bytes.rs: to_u32(v: i32) = 2147483648_u32.wrapping_add(v as u32). -/
def to_u32 (v : Int) : Nat := (2147483648 + intAsU32 v) % 4294967296

/-- bytes.rs: to_u64(v: i64) = 9223372036854775808_u64.wrapping_add(v as u64). -/
def to_u64 (v : Int) : Nat :=
  (9223372036854775808 + intAsU64 v) % 18446744073709551616

/-! ### Big-endian readers over a row byte slice ------------------------
Mirrors struct Bytes in bytes.rs; an out-of-bounds read (a Rust panic)
is surfaced as none. -/

/-- Big-endian value of a list of bytes. -/
def beNat (bs : List Nat) : Nat := bs.foldl (fun a b => a * 256 + b) 0

/-- The n bytes of a row starting at byte f, when in bounds. -/
def bytesAt (row : List Nat) (f n : Nat) : Option (List Nat) :=
  if f + n ≤ row.length then some ((row.drop f).take n) else none

/-- Bytes::read_u8. -/
def readU8 (row : List Nat) (f : Nat) : Option Nat := row.get? f

/-- Bytes::read_i16 (big-endian). -/
def readI16 (row : List Nat) (f : Nat) : Option Int :=
  (bytesAt row f 2).map (fun bs => toI16 (beNat bs))

/-- Bytes::read_i32 (big-endian). -/
def readI32 (row : List Nat) (f : Nat) : Option Int :=
  (bytesAt row f 4).map (fun bs => toI32 (beNat bs))

/-- Bytes::read_i64 (big-endian). -/
def readI64 (row : List Nat) (f : Nat) : Option Int :=
  (bytesAt row f 8).map (fun bs => toI64 (beNat bs))

/-- The raw 64 bits (big-endian) of an f64 field, uninterpreted. -/
def readF64Bits (row : List Nat) (f : Nat) : Option Nat :=
  (bytesAt row f 8).map beNat

/-! ### TSCAL / TZERO keyword values ------------------------------------
From common/keywords/tables/tscaltzero.rs. -/

/-- UIF64 from tscaltzero.rs: the TZERO value, kept as u64, i64 or f64
(the float case modeled as Rat). -/
inductive UIF64 where
  | u64 (v : Nat)
  | i64 (v : Int)
  | f64 (v : Rat)
deriving DecidableEq, Repr

namespace UIF64

/-- UIF64::is_0: matches U64(0) | I64(-0) | F64(0.0). -/
def is_0 : UIF64 → Bool
  | .u64 0 => true
  | .i64 0 => true
  | .f64 v => v = 0
  | _ => false

/-- UIF64::is_i8_offset: I64(-128). -/
def is_i8_offset : UIF64 → Bool
  | .i64 v => v = -128
  | _ => false

/-- UIF64::is_u16_offset: U64(32768). -/
def is_u16_offset : UIF64 → Bool
  | .u64 v => v = 32768
  | _ => false

/-- UIF64::is_u32_offset: U64(2147483648). -/
def is_u32_offset : UIF64 → Bool
  | .u64 v => v = 2147483648
  | _ => false

/-- UIF64::is_u64_offset: U64(9223372036854775808). -/
def is_u64_offset : UIF64 → Bool
  | .u64 v => v = 9223372036854775808
  | _ => false

/-- UIF64::as_f32 (the f32 rounding is modeled as the exact rational). -/
def as_f32 : UIF64 → Rat
  | .u64 v => (v : Rat)
  | .i64 v => (v : Rat)
  | .f64 v => v

/-- UIF64::as_f64 (the f64 rounding is modeled as the exact rational). -/
def as_f64 : UIF64 → Rat
  | .u64 v => (v : Rat)
  | .i64 v => (v : Rat)
  | .f64 v => v

end UIF64

/-! ### TFORM values -----------------------------------------------------
From common/keywords/tables/bintable/tform.rs. -/

/-- RepeatCountAndExtraChar from tform.rs (r = repeat count, a = extra char). -/
structure RepeatCountAndExtraChar where
  r : Option Nat
  a : Option Nat
deriving DecidableEq, Repr

/-- RepeatCountAndExtraChar::repeat_count: r.unwrap_or(1). -/
def RepeatCountAndExtraChar.repeat_count (rc : RepeatCountAndExtraChar) : Nat :=
  rc.r.getD 1

/-- VariableLenghtArrayDataType from tform.rs (source spelling kept). -/
inductive VariableLenghtArrayDataType where
  | L | B | I | J | K | A | E | D | C | M
deriving DecidableEq, Repr

/-- VariableLenghtArrayInfo from tform.rs. -/
structure VariableLenghtArrayInfo where
  r_is_1 : Option Bool
  data_type : VariableLenghtArrayDataType
  max_len : Nat
  a : Option Nat
deriving DecidableEq, Repr

/-- VariableLenghtArrayInfo::is_repeat_count_eq_1: r_is_1.unwrap_or(true). -/
def VariableLenghtArrayInfo.is_repeat_count_eq_1 (z : VariableLenghtArrayInfo) : Bool :=
  z.r_is_1.getD true

/-- TFormValue from tform.rs. -/
inductive TFormValue where
  | L (rc : RepeatCountAndExtraChar)
  | X (rc : RepeatCountAndExtraChar)
  | B (rc : RepeatCountAndExtraChar)
  | I (rc : RepeatCountAndExtraChar)
  | J (rc : RepeatCountAndExtraChar)
  | K (rc : RepeatCountAndExtraChar)
  | A (rc : RepeatCountAndExtraChar)
  | E (rc : RepeatCountAndExtraChar)
  | D (rc : RepeatCountAndExtraChar)
  | C (rc : RepeatCountAndExtraChar)
  | M (rc : RepeatCountAndExtraChar)
  | P (zo : VariableLenghtArrayInfo)
  | Q (zo : VariableLenghtArrayInfo)
deriving DecidableEq, Repr

/-! ### Field schemas ----------------------------------------------------
From hdu/xtension/bintable/schema.rs. ArrayParam and HeapArrayParam carry
just a length; the scale/offset pairs are kept as Rat. -/

/-- ScaleOffset32 from schema.rs (f32 values modeled as Rat). -/
structure ScaleOffset32 where
  scale : Rat
  offset : Rat
deriving DecidableEq, Repr

/-- ScaleOffset64 from schema.rs (f64 values modeled as Rat). -/
structure ScaleOffset64 where
  scale : Rat
  offset : Rat
deriving DecidableEq, Repr

/-- ArrayParam from schema.rs. -/
structure ArrayParam where
  len : Nat
deriving DecidableEq, Repr

/-- ArrayParamWithScaleOffset32 from schema.rs. -/
structure ArrayParamWithScaleOffset32 where
  array_params : ArrayParam
  scale_offset : ScaleOffset32
deriving DecidableEq, Repr

/-- ArrayParamWithScaleOffset64 from schema.rs. -/
structure ArrayParamWithScaleOffset64 where
  array_params : ArrayParam
  scale_offset : ScaleOffset64
deriving DecidableEq, Repr

/-- HeapArrayParam from schema.rs (max_len is the upper bound on the
stored array size). -/
structure HeapArrayParam where
  max_len : Nat
deriving DecidableEq, Repr

/-- HeapArrayParamWithScaleOffset32 from schema.rs. -/
structure HeapArrayParamWithScaleOffset32 where
  heap_params : HeapArrayParam
  scale_offset : ScaleOffset32
deriving DecidableEq, Repr

/-- HeapArrayParamWithScaleOffset64 from schema.rs. -/
structure HeapArrayParamWithScaleOffset64 where
  heap_params : HeapArrayParam
  scale_offset : ScaleOffset64
deriving DecidableEq, Repr

/-- HeapArraySchema from schema.rs. -/
inductive HeapArraySchema where
  | HeapNullableBooleanArray (p : HeapArrayParam)
  | HeapByteArray (p : HeapArrayParam)
  | HeapShortArray (p : HeapArrayParam)
  | HeapIntArray (p : HeapArrayParam)
  | HeapLongArray (p : HeapArrayParam)
  | HeapNullableByteArray (null : Nat) (hap : HeapArrayParam)
  | HeapNullableShortArray (null : Int) (hap : HeapArrayParam)
  | HeapNullableIntArray (null : Int) (hap : HeapArrayParam)
  | HeapNullableLongArray (null : Int) (hap : HeapArrayParam)
  | HeapUnsignedByteArray (p : HeapArrayParam)
  | HeapUnsignedShortArray (p : HeapArrayParam)
  | HeapUnsignedIntArray (p : HeapArrayParam)
  | HeapUnsignedLongArray (p : HeapArrayParam)
  | HeapNullableUnsignedByteArray (null : Nat) (hap : HeapArrayParam)
  | HeapNullableUnsignedShortArray (null : Int) (hap : HeapArrayParam)
  | HeapNullableUnsignedIntArray (null : Int) (hap : HeapArrayParam)
  | HeapNullableUnsignedLongArray (null : Int) (hap : HeapArrayParam)
  | HeapFloatArray (p : HeapArrayParam)
  | HeapFloatArrayFromFloat (p : HeapArrayParamWithScaleOffset32)
  | HeapFloatArrayFromByte (p : HeapArrayParamWithScaleOffset32)
  | HeapFloatArrayFromShort (p : HeapArrayParamWithScaleOffset32)
  | HeapDoubleArray (p : HeapArrayParam)
  | HeapDoubleArrayFromDouble (p : HeapArrayParamWithScaleOffset64)
  | HeapDoubleArrayFromInt (p : HeapArrayParamWithScaleOffset64)
  | HeapDoubleArrayFromLong (p : HeapArrayParamWithScaleOffset64)
  | HeapComplexFloatArray (p : HeapArrayParam)
  | HeapComplexDoubleArray (p : HeapArrayParam)
  | HeapAsciiString (p : HeapArrayParam)

/-- Schema from schema.rs: the tagged enumeration of logical decoding
variants for one column. -/
inductive Schema where
  | Empty
  | NullableBoolean
  | Bits (n_bits : Nat)
  | Byte
  | Short
  | Int
  | Long
  | NullableByte (null : Nat)
  | NullableShort (null : Int)
  | NullableInt (null : Int)
  | NullableLong (null : Int)
  | UnsignedByte
  | UnsignedShort
  | UnsignedInt
  | UnsignedLong
  | NullableUnsignedByte (null : Nat)
  | NullableUnsignedShort (null : Int)
  | NullableUnsignedInt (null : Int)
  | NullableUnsignedLong (null : Int)
  | Float
  | FloatFromFloat (p : ScaleOffset32)
  | FloatFromByte (p : ScaleOffset32)
  | FloatFromShort (p : ScaleOffset32)
  | Double
  | DoubleFromDouble (p : ScaleOffset64)
  | DoubleFromInt (p : ScaleOffset64)
  | DoubleFromLong (p : ScaleOffset64)
  | ComplexFloat
  | ComplexDouble
  | AsciiChar
  | NullableBooleanArray (p : ArrayParam)
  | ByteArray (p : ArrayParam)
  | ShortArray (p : ArrayParam)
  | IntArray (p : ArrayParam)
  | LongArray (p : ArrayParam)
  | NullableByteArray (null : Nat) (p : ArrayParam)
  | NullableShortArray (null : Int) (p : ArrayParam)
  | NullableIntArray (null : Int) (p : ArrayParam)
  | NullableLongArray (null : Int) (p : ArrayParam)
  | UnsignedByteArray (p : ArrayParam)
  | UnsignedShortArray (p : ArrayParam)
  | UnsignedIntArray (p : ArrayParam)
  | UnsignedLongArray (p : ArrayParam)
  | NullableUnsignedByteArray (null : Nat) (p : ArrayParam)
  | NullableUnsignedShortArray (null : Int) (p : ArrayParam)
  | NullableUnsignedIntArray (null : Int) (p : ArrayParam)
  | NullableUnsignedLongArray (null : Int) (p : ArrayParam)
  | FloatArray (p : ArrayParam)
  | FloatArrayFromFloat (p : ArrayParamWithScaleOffset32)
  | FloatArrayFromBytes (p : ArrayParamWithScaleOffset32)
  | FloatArrayFromShort (p : ArrayParamWithScaleOffset32)
  | DoubleArray (p : ArrayParam)
  | DoubleArrayFromDouble (p : ArrayParamWithScaleOffset64)
  | DoubleArrayFromInt (p : ArrayParamWithScaleOffset64)
  | DoubleArrayFromLong (p : ArrayParamWithScaleOffset64)
  | ComplexFloatArray (p : ArrayParam)
  | ComplexDoubleArray (p : ArrayParam)
  | AsciiString (p : ArrayParam)
  | HeapArrayPtr32 (has : HeapArraySchema)
  | HeapArrayPtr64 (has : HeapArraySchema)

/-! ### Column-header to schema mapping ---------------------------------
From BinTableColumnHeader::schema and heap_array_data_type in
hdu/xtension/bintable/header.rs. A todo macro in the source (an
unimplemented combination that panics at run time) is the explicit
outcome todoPanic; the "TSCAL/TZERO ignored" warn log lines are captured
as a Bool flag. -/

/-- Outcome of heap_array_data_type: a heap schema plus whether an
"ignored modifier" warning was logged, or a todo panic. -/
inductive HeapOutcome where
  | ok (s : HeapArraySchema) (warn : Bool)
  | todoPanic

/-- Outcome of BinTableColumnHeader::schema for a column whose TFORM is
present: a schema variant plus whether an "ignored modifier" warning was
logged, or a todo panic. -/
inductive SchemaOutcome where
  | ok (s : Schema) (warn : Bool)
  | todoPanic

/-- The Rust pattern matches-F64(0.0) test used in the TFORM A / heap
L and A warning conditions (it differs from is_0, which also accepts
U64(0) and I64(0)). -/
def offsetIsF64Zero : UIF64 → Bool
  | .f64 v => v = 0
  | _ => false

/-- heap_array_data_type from header.rs. -/
def heap_array_data_type (vdt : VariableLenghtArrayDataType) (hap : HeapArrayParam)
    (scale : Rat) (offset : UIF64) : HeapOutcome :=
  match vdt with
  | .L =>
    HeapOutcome.ok (.HeapNullableBooleanArray hap)
      (!(decide (scale = 1)) || !(offsetIsF64Zero offset))
  | .A =>
    HeapOutcome.ok (.HeapAsciiString hap)
      (!(decide (scale = 1)) || !(offsetIsF64Zero offset))
  | .B =>
    if decide (scale = 1) && offset.is_0 then HeapOutcome.ok (.HeapUnsignedByteArray hap) false
    else if decide (scale = 1) && offset.is_i8_offset then HeapOutcome.ok (.HeapByteArray hap) false
    else HeapOutcome.ok (.HeapFloatArrayFromByte ⟨hap, ⟨scale, offset.as_f32⟩⟩) false
  | .I =>
    if decide (scale = 1) && offset.is_0 then HeapOutcome.ok (.HeapShortArray hap) false
    else if decide (scale = 1) && offset.is_u16_offset then
      HeapOutcome.ok (.HeapUnsignedShortArray hap) false
    else HeapOutcome.ok (.HeapFloatArrayFromShort ⟨hap, ⟨scale, offset.as_f32⟩⟩) false
  | .J =>
    if decide (scale = 1) && offset.is_0 then HeapOutcome.ok (.HeapIntArray hap) false
    else if decide (scale = 1) && offset.is_u32_offset then
      HeapOutcome.ok (.HeapUnsignedIntArray hap) false
    else HeapOutcome.ok (.HeapDoubleArrayFromInt ⟨hap, ⟨scale, offset.as_f64⟩⟩) false
  | .K =>
    if decide (scale = 1) && offset.is_0 then HeapOutcome.ok (.HeapLongArray hap) false
    else if decide (scale = 1) && offset.is_u64_offset then
      HeapOutcome.ok (.HeapUnsignedLongArray hap) false
    else HeapOutcome.ok (.HeapDoubleArrayFromLong ⟨hap, ⟨scale, offset.as_f64⟩⟩) false
  | .E =>
    if decide (scale = 1) && offset.is_0 then HeapOutcome.ok (.HeapFloatArray hap) false
    else HeapOutcome.ok (.HeapFloatArrayFromFloat ⟨hap, ⟨scale, offset.as_f32⟩⟩) false
  | .D =>
    if decide (scale = 1) && offset.is_0 then HeapOutcome.ok (.HeapDoubleArray hap) false
    else HeapOutcome.ok (.HeapDoubleArrayFromDouble ⟨hap, ⟨scale, offset.as_f64⟩⟩) false
  | .C =>
    if decide (scale = 1) && offset.is_0 then HeapOutcome.ok (.HeapComplexFloatArray hap) false
    else HeapOutcome.todoPanic
  | .M =>
    if decide (scale = 1) && offset.is_0 then HeapOutcome.ok (.HeapComplexDoubleArray hap) false
    else HeapOutcome.todoPanic

/-- The per-column optional keywords of a parsed BINTABLE column header
(BinTableColumnHeader in header.rs), restricted to the fields consulted
by schema(): TFORM, TNULL (an i64 sentinel), TSCAL, TZERO, and TDIM
(present on the struct but never read by schema()). -/
structure BinTableColumnHeader where
  tform : Option TFormValue
  tnull : Option Int
  tscal : Option Rat
  tzero : Option UIF64
  tdim : Option (List Nat)

/-- BinTableColumnHeader::schema from header.rs: guard-ordered match on
the TFORM value; returns none when TFORM is absent. -/
def BinTableColumnHeader.schema (h : BinTableColumnHeader) : Option SchemaOutcome :=
  let scale : Rat := h.tscal.getD 1
  let offset : UIF64 := h.tzero.getD (.f64 0)
  h.tform.map (fun tform =>
    match tform with
    | .L rc =>
      let warn := !(decide (scale = 1)) || !offset.is_0
      match rc.repeat_count with
      | 0 => SchemaOutcome.ok .Empty warn
      | 1 => SchemaOutcome.ok .NullableBoolean warn
      | len => SchemaOutcome.ok (.NullableBooleanArray ⟨len⟩) warn
    | .X rc =>
      let warn := !(decide (scale = 1)) || !offset.is_0
      match rc.repeat_count with
      | 0 => SchemaOutcome.ok .Empty warn
      | len => SchemaOutcome.ok (.Bits len) warn
    | .B rc =>
      if decide (scale = 1) || offset.is_0 then
        match rc.repeat_count with
        | 0 => SchemaOutcome.ok .Empty false
        | 1 =>
          match h.tnull with
          | none => SchemaOutcome.ok .UnsignedByte false
          | some null => SchemaOutcome.ok (.NullableUnsignedByte (intAsU8 null)) false
        | len =>
          match h.tnull with
          | none => SchemaOutcome.ok (.UnsignedByteArray ⟨len⟩) false
          | some null => SchemaOutcome.ok (.NullableUnsignedByteArray (intAsU8 null) ⟨len⟩) false
      else if decide (scale = 1) && offset.is_i8_offset then
        match rc.repeat_count with
        | 0 => SchemaOutcome.ok .Empty false
        | 1 =>
          match h.tnull with
          | none => SchemaOutcome.ok .Byte false
          | some null => SchemaOutcome.ok (.NullableByte (intAsU8 null)) false
        | len =>
          match h.tnull with
          | none => SchemaOutcome.ok (.ByteArray ⟨len⟩) false
          | some null => SchemaOutcome.ok (.NullableByteArray (intAsU8 null) ⟨len⟩) false
      else
        if h.tnull.isSome then SchemaOutcome.todoPanic
        else
          let transform : ScaleOffset32 := ⟨scale, offset.as_f32⟩
          match rc.repeat_count with
          | 0 => SchemaOutcome.ok .Empty false
          | 1 => SchemaOutcome.ok (.FloatFromByte transform) false
          | len => SchemaOutcome.ok (.FloatArrayFromBytes ⟨⟨len⟩, transform⟩) false
    | .I rc =>
      if decide (scale = 1) || offset.is_0 then
        match rc.repeat_count with
        | 0 => SchemaOutcome.ok .Empty false
        | 1 =>
          match h.tnull with
          | none => SchemaOutcome.ok .Short false
          | some null => SchemaOutcome.ok (.NullableShort (intAsI16 null)) false
        | len =>
          match h.tnull with
          | none => SchemaOutcome.ok (.ShortArray ⟨len⟩) false
          | some null => SchemaOutcome.ok (.NullableShortArray (intAsI16 null) ⟨len⟩) false
      else if decide (scale = 1) && offset.is_u16_offset then
        match rc.repeat_count with
        | 0 => SchemaOutcome.ok .Empty false
        | 1 =>
          match h.tnull with
          | none => SchemaOutcome.ok .UnsignedShort false
          | some null => SchemaOutcome.ok (.NullableUnsignedShort (intAsI16 null)) false
        | len =>
          match h.tnull with
          | none => SchemaOutcome.ok (.UnsignedShortArray ⟨len⟩) false
          | some null =>
            SchemaOutcome.ok (.NullableUnsignedShortArray (intAsI16 null) ⟨len⟩) false
      else
        if h.tnull.isSome then SchemaOutcome.todoPanic
        else
          let transform : ScaleOffset32 := ⟨scale, offset.as_f32⟩
          match rc.repeat_count with
          | 0 => SchemaOutcome.ok .Empty false
          | 1 => SchemaOutcome.ok (.FloatFromShort transform) false
          | len => SchemaOutcome.ok (.FloatArrayFromShort ⟨⟨len⟩, transform⟩) false
    | .J rc =>
      if decide (scale = 1) || offset.is_0 then
        match rc.repeat_count with
        | 0 => SchemaOutcome.ok .Empty false
        | 1 =>
          match h.tnull with
          | none => SchemaOutcome.ok .Int false
          | some null => SchemaOutcome.ok (.NullableInt (intAsI32 null)) false
        | len =>
          match h.tnull with
          | none => SchemaOutcome.ok (.IntArray ⟨len⟩) false
          | some null => SchemaOutcome.ok (.NullableIntArray (intAsI32 null) ⟨len⟩) false
      else if decide (scale = 1) && offset.is_u32_offset then
        match rc.repeat_count with
        | 0 => SchemaOutcome.ok .Empty false
        | 1 =>
          match h.tnull with
          | none => SchemaOutcome.ok .UnsignedInt false
          | some null => SchemaOutcome.ok (.NullableUnsignedInt (intAsI32 null)) false
        | len =>
          match h.tnull with
          | none => SchemaOutcome.ok (.UnsignedIntArray ⟨len⟩) false
          | some null => SchemaOutcome.ok (.NullableUnsignedIntArray (intAsI32 null) ⟨len⟩) false
      else
        let transform : ScaleOffset64 := ⟨scale, offset.as_f64⟩
        match rc.repeat_count with
        | 0 => SchemaOutcome.ok .Empty false
        | 1 => SchemaOutcome.ok (.DoubleFromInt transform) false
        | len => SchemaOutcome.ok (.DoubleArrayFromInt ⟨⟨len⟩, transform⟩) false
    | .K rc =>
      if decide (scale = 1) || offset.is_0 then
        match rc.repeat_count with
        | 0 => SchemaOutcome.ok .Empty false
        | 1 =>
          match h.tnull with
          | none => SchemaOutcome.ok .Long false
          | some null => SchemaOutcome.ok (.NullableLong null) false
        | len =>
          match h.tnull with
          | none => SchemaOutcome.ok (.LongArray ⟨len⟩) false
          | some null => SchemaOutcome.ok (.NullableLongArray null ⟨len⟩) false
      else if decide (scale = 1) && offset.is_u64_offset then
        match rc.repeat_count with
        | 0 => SchemaOutcome.ok .Empty false
        | 1 =>
          match h.tnull with
          | none => SchemaOutcome.ok .UnsignedLong false
          | some null => SchemaOutcome.ok (.NullableUnsignedLong null) false
        | len =>
          match h.tnull with
          | none => SchemaOutcome.ok (.UnsignedLongArray ⟨len⟩) false
          | some null => SchemaOutcome.ok (.NullableUnsignedLongArray null ⟨len⟩) false
      else
        let transform : ScaleOffset64 := ⟨scale, offset.as_f64⟩
        match rc.repeat_count with
        | 0 => SchemaOutcome.ok .Empty false
        | 1 => SchemaOutcome.ok (.DoubleFromLong transform) false
        | len => SchemaOutcome.ok (.DoubleArrayFromLong ⟨⟨len⟩, transform⟩) false
    | .A rc =>
      let warn := !(decide (scale = 1)) || !(offsetIsF64Zero offset)
      match rc.repeat_count with
      | 0 => SchemaOutcome.ok .Empty warn
      | 1 => SchemaOutcome.ok .AsciiChar warn
      | len => SchemaOutcome.ok (.AsciiString ⟨len⟩) warn
    | .E rc =>
      if decide (scale = 1) || offset.is_0 then
        match rc.repeat_count with
        | 0 => SchemaOutcome.ok .Empty false
        | 1 => SchemaOutcome.ok .Float false
        | len => SchemaOutcome.ok (.FloatArray ⟨len⟩) false
      else
        let transform : ScaleOffset32 := ⟨scale, offset.as_f32⟩
        match rc.repeat_count with
        | 0 => SchemaOutcome.ok .Empty false
        | 1 => SchemaOutcome.ok (.FloatFromFloat transform) false
        | len => SchemaOutcome.ok (.FloatArrayFromFloat ⟨⟨len⟩, transform⟩) false
    | .D rc =>
      if decide (scale = 1) || offset.is_0 then
        match rc.repeat_count with
        | 0 => SchemaOutcome.ok .Empty false
        | 1 => SchemaOutcome.ok .Double false
        | len => SchemaOutcome.ok (.DoubleArray ⟨len⟩) false
      else
        let transform : ScaleOffset64 := ⟨scale, offset.as_f64⟩
        match rc.repeat_count with
        | 0 => SchemaOutcome.ok .Empty false
        | 1 => SchemaOutcome.ok (.DoubleFromDouble transform) false
        | len => SchemaOutcome.ok (.DoubleArrayFromDouble ⟨⟨len⟩, transform⟩) false
    | .C rc =>
      if decide (scale = 1) || offset.is_0 then
        match rc.repeat_count with
        | 0 => SchemaOutcome.ok .Empty false
        | 1 => SchemaOutcome.ok .ComplexFloat false
        | len => SchemaOutcome.ok (.ComplexFloatArray ⟨len⟩) false
      else SchemaOutcome.todoPanic
    | .M rc =>
      if decide (scale = 1) || offset.is_0 then
        match rc.repeat_count with
        | 0 => SchemaOutcome.ok .Empty false
        | 1 => SchemaOutcome.ok .ComplexDouble false
        | len => SchemaOutcome.ok (.ComplexDoubleArray ⟨len⟩) false
      else SchemaOutcome.todoPanic
    | .P zo =>
      if h.tnull.isSome then SchemaOutcome.todoPanic
      else if zo.is_repeat_count_eq_1 then
        match heap_array_data_type zo.data_type ⟨zo.max_len⟩ scale offset with
        | .ok s warn => SchemaOutcome.ok (.HeapArrayPtr32 s) warn
        | .todoPanic => SchemaOutcome.todoPanic
      else SchemaOutcome.ok .Empty false
    | .Q zo =>
      if h.tnull.isSome then SchemaOutcome.todoPanic
      else if zo.is_repeat_count_eq_1 then
        match heap_array_data_type zo.data_type ⟨zo.max_len⟩ scale offset with
        | .ok s warn => SchemaOutcome.ok (.HeapArrayPtr64 s) warn
        | .todoPanic => SchemaOutcome.todoPanic
      else SchemaOutcome.ok .Empty false)

/-! ### Row deserializer, scalar paths ----------------------------------
From FieldSchema::deserialize in schema.rs dispatching into
DeserializerWithHeap in read/deser/sliceheap.rs. A FieldValue records
which visitor callback was invoked and with what value. Only the scalar
integer paths (the ones the settled claims are about) are embedded;
the remaining schema variants decode to none here. -/

/-- The visitor callback invoked for one decoded scalar field. -/
inductive FieldValue where
  | nullVal
  | i8 (v : Int)
  | i16 (v : Int)
  | i32 (v : Int)
  | i64 (v : Int)
  | u8 (v : Nat)
  | u16 (v : Nat)
  | u32 (v : Nat)
  | u64 (v : Nat)
deriving DecidableEq, Repr

/-- Decode one field of a row at starting byte f, following
FieldSchema::deserialize and the deserialize_* methods of
DeserializerWithHeap (scalar integer paths; none elsewhere, and none on
an out-of-bounds read, which panics in the source). -/
def decodeField (s : Schema) (row : List Nat) (f : Nat) : Option FieldValue :=
  match s with
  | .Byte => (readU8 row f).map (fun v => .i8 (to_i8 v))
  | .Short => (readI16 row f).map .i16
  | .Int => (readI32 row f).map .i32
  | .Long => (readI64 row f).map .i64
  | .NullableByte null =>
    (readU8 row f).map (fun v => if v ≠ null then .i8 (to_i8 v) else .nullVal)
  | .NullableShort null =>
    (readI16 row f).map (fun v => if v ≠ null then .i16 v else .nullVal)
  | .NullableInt null =>
    (readI32 row f).map (fun v => if v ≠ null then .i32 v else .nullVal)
  | .NullableLong null =>
    (readI64 row f).map (fun v => if v ≠ null then .i64 v else .nullVal)
  | .UnsignedByte => (readU8 row f).map .u8
  | .UnsignedShort => (readI16 row f).map (fun v => .u16 (to_u16 v))
  | .UnsignedInt => (readI32 row f).map (fun v => .u32 (to_u32 v))
  | .UnsignedLong => (readI64 row f).map (fun v => .u64 (to_u64 v))
  | .NullableUnsignedByte null =>
    (readU8 row f).map (fun v => if v ≠ null then .u8 v else .nullVal)
  | .NullableUnsignedShort null =>
    (readI16 row f).map (fun v => if v ≠ null then .u16 (to_u16 v) else .nullVal)
  | .NullableUnsignedInt null =>
    (readI32 row f).map (fun v => if v ≠ null then .u32 (to_u32 v) else .nullVal)
  | .NullableUnsignedLong null =>
    (readI64 row f).map (fun v => if v ≠ null then .u64 (to_u64 v) else .nullVal)
  | _ => none

/-! ### CSV visitor and single-threaded CSV conversion ------------------
From CSVVisitor in read/visitor/csv.rs and the single-thread branch of
convert_to_csv in crates/cli/src/csv.rs. The writer is modeled by
returning the emitted String. -/

/-- The mutable separator state of CSVVisitor (starts_new_line resets it
to a newline; write_sep emits it and switches to a comma). -/
structure CSVVisitorState where
  sep : Char
deriving DecidableEq, Repr

/-- CSVVisitor::write_sep: emit the current separator, switch to a comma. -/
def CSVVisitorState.write_sep (st : CSVVisitorState) : String × CSVVisitorState :=
  (String.singleton st.sep, ⟨','⟩)

/-- CSVVisitor::write: separator followed by the Display form of the value. -/
def CSVVisitorState.write (st : CSVVisitorState) (s : String) : String × CSVVisitorState :=
  let (o, st2) := st.write_sep
  (o ++ s, st2)

/-- The CSV visitor callback behavior on the scalar field values:
visit_iN / visit_uN write the decimal value, a null option writes the
separator only (write_opt with None). -/
def csvVisitValue (st : CSVVisitorState) (v : FieldValue) : String × CSVVisitorState :=
  match v with
  | .nullVal => st.write_sep
  | .i8 v => st.write (toString v)
  | .i16 v => st.write (toString v)
  | .i32 v => st.write (toString v)
  | .i64 v => st.write (toString v)
  | .u8 v => st.write (toString v)
  | .u16 v => st.write (toString v)
  | .u32 v => st.write (toString v)
  | .u64 v => st.write (toString v)

/-- Deserialize the fields of one row into the CSV visitor, threading the
separator state (RowSchema::deserialize driving the CSVVisitor). -/
def csvFields : List (Schema × Nat) → List Nat → CSVVisitorState → Option String
  | [], _, _ => some ""
  | (s, f) :: rest, row, st =>
    (decodeField s row f).bind (fun v =>
      let (o, st2) := csvVisitValue st v
      (csvFields rest row st2).map (fun t => o ++ t))

/-- One CSV data row: visitor.starts_new_line() then the fields. -/
def csvRowString (fields : List (Schema × Nat)) (row : List Nat) : Option String :=
  csvFields fields row ⟨Char.ofNat 10⟩

/-- The header line of convert_to_csv: column names separated by commas,
a missing TTYPE printed as col_ followed by the 0-based column index. -/
def csvHeaderLine (cols : List (Option String)) : String :=
  String.intercalate "," (cols.mapIdx (fun i name => name.getD ("col_" ++ toString i)))

/-- The single-thread branch of convert_to_csv from crates/cli/src/csv.rs:
optional header line, one visitor-driven line per row (each beginning
with the reset newline separator), and a final newline. -/
def convert_to_csv (no_header : Bool) (cols : List (Option String))
    (fields : List (Schema × Nat)) (rows : List (List Nat)) : Option String :=
  let head := if no_header then "" else csvHeaderLine cols
  (rows.mapM (csvRowString fields)).map (fun lines =>
    head ++ String.join lines ++ String.singleton (Char.ofNat 10))

/-! ### RawHeader::from_slice --------------------------------------------
From hdu/header/raw.rs. Outcomes: ok, a returned Err, or a Rust panic
(an out-of-bounds slice index in check_first_keyword or split_at). -/

/-- Result of a header-parsing step: success, a returned error, or a
panic (out-of-bounds slice access). -/
inductive HeaderParse (A : Type) where
  | ok (v : A)
  | err (msg : String)
  | panicked
deriving DecidableEq, Repr

/-- The 8 keyword bytes SIMPLE padded with two spaces. -/
def SIMPLE_KW : List Nat := "SIMPLE  ".data.map Char.toNat

/-- The 8 keyword bytes XTENSION. -/
def XTENSION_KW : List Nat := "XTENSION".data.map Char.toNat

/-- The 8 bytes END padded with five spaces. -/
def END_KW : List Nat := "END     ".data.map Char.toNat

/-- RawHeader over in-memory bytes: the header blocks (2880 bytes each)
and the keyword-record index of the END record. -/
structure RawHeader where
  blocks : List (List Nat)
  end_position : Nat
deriving Repr

/-- RawHeader::byte_size: 2880 times the number of blocks. -/
def RawHeader.byte_size (h : RawHeader) : Nat := 2880 * h.blocks.length

/-- RawHeader::end_position: index in [0, 36) of the first keyword record
of the block that starts with the END keyword, if any. -/
def end_position (chunk : List Nat) : Option Nat :=
  (List.range 36).find? (fun i => ((chunk.drop (80 * i)).take 8) = END_KW)

/-- RawHeader::check_first_keyword: the first 8 bytes must be SIMPLE (for
the primary HDU) or XTENSION (for the following ones); indexing
bytes[0..8] panics when fewer than 8 bytes remain. -/
def check_first_keyword (is_primary : Bool) (bytes : List Nat) : HeaderParse Unit :=
  if bytes.length < 8 then .panicked
  else
    let kw := bytes.take 8
    if is_primary = true ∧ kw ≠ SIMPLE_KW then .err "unexpected keyword, expected SIMPLE"
    else if is_primary = false ∧ kw ≠ XTENSION_KW then .err "unexpected keyword, expected XTENSION"
    else .ok ()

/-- The block-reading loop of RawHeader::from_slice: split_at(2880)
panics when fewer than 2880 bytes remain; otherwise the 2880-byte chunk
is pushed and the loop stops at the first chunk containing END. -/
def from_slice_loop (bytes : List Nat) (blocks : List (List Nat)) :
    HeaderParse (RawHeader × List Nat) :=
  if bytes.length < 2880 then .panicked
  else
    let chunk := bytes.take 2880
    let remainder := bytes.drop 2880
    match end_position chunk with
    | some ep => .ok (⟨blocks ++ [chunk], ep + 36 * blocks.length⟩, remainder)
    | none => from_slice_loop remainder (blocks ++ [chunk])
termination_by bytes.length
decreasing_by simp only [List.length_drop, remainder]; omega

/-- RawHeader::from_slice from raw.rs. -/
def RawHeader.from_slice (is_primary : Bool) (bytes : List Nat) :
    HeaderParse (RawHeader × List Nat) :=
  match check_first_keyword is_primary bytes with
  | .ok _ => from_slice_loop bytes []
  | .err e => .err e
  | .panicked => .panicked

/-! ### HEALPix cumulative index construction ---------------------------
From hcidx in read/hidx.rs, for one BINTABLE HDU. A row is represented
by its HEALPix cell number at the index depth (the hpx closure output);
w is the row byte size and start the data starting byte. -/

/-- n_hash from the cdshealpix interface: number of cells at a depth. -/
def n_hash (depth : Nat) : Nat := 12 * 4 ^ depth

/-- The f64::is_nan test on the raw big-endian 64 bits: exponent bits
all ones and a non-zero fraction. -/
def f64_is_nan (bits : Nat) : Bool :=
  decide ((bits / 2 ^ 52) % 2 ^ 11 = 2047) && decide (bits % 2 ^ 52 ≠ 0)

/-- The hpx position-provider closure of hcidx: read the two f64 columns
(big-endian) at their starting bytes; a NaN longitude or latitude maps to
cell 0, otherwise the HEALPix hash of the position is used. The hash
computation itself lives in the external cdshealpix crate and is taken
as an abstract function of the two bit patterns. -/
def hpxCell (hash : Nat → Nat → Nat) (lon_start lat_start : Nat) (row : List Nat) :
    Option Nat :=
  (readF64Bits row lon_start).bind (fun lon =>
    (readF64Bits row lat_start).map (fun lat =>
      if f64_is_nan lon || f64_is_nan lat then 0 else hash lon lat))

/-- The row loop of the implicit-shape build in hcidx: abort when
icell + 1 < map.len(), otherwise push the current byte offset for every
cell from map.len() to icell and advance the offset by the row size. -/
def hcidxImplicitLoop (w : Nat) : List Nat → List Nat → Nat → Except String (List Nat × Nat)
  | [], map, off => .ok (map, off)
  | icell :: rest, map, off =>
    if icell + 1 < map.length then
      .error "HEALPix error: the file seems not to be sorted!"
    else
      hcidxImplicitLoop w rest (map ++ List.replicate (icell + 1 - map.length) off) (off + w)

/-- The implicit-shape build of hcidx: run the row loop from an empty map
and the data starting byte, then complete the map up to n_hash + 1
entries with the final byte offset. -/
def hcidxImplicit (depth w start : Nat) (cells : List Nat) : Except String (List Nat) :=
  (hcidxImplicitLoop w cells [] start).map (fun p =>
    p.1 ++ List.replicate (n_hash depth + 1 - p.1.length) p.2)

/-- The row loop of the explicit-shape build in hcidx: abort when
icell + 1 < prev_icell; push (icell, byte_offset) only when the cell
number strictly increases (or for a first row in cell 0). -/
def hcidxExplicitLoop (w : Nat) :
    List Nat → List (Nat × Nat) → Nat → Nat → Except String (List (Nat × Nat) × Nat × Nat)
  | [], entries, prev_icell, off => .ok (entries, prev_icell, off)
  | icell :: rest, entries, prev_icell, off =>
    if icell + 1 < prev_icell then
      .error "HEALPix error: the file seems not to be sorted!"
    else
      let entries2 :=
        if icell > prev_icell ∨ (icell = 0 ∧ entries = []) then entries ++ [(icell, off)]
        else entries
      hcidxExplicitLoop w rest entries2 icell (off + w)

/-- The explicit-shape build of hcidx: run the row loop (prev_icell
starts at 0), then append the terminal (prev_icell + 1, end_byte) entry. -/
def hcidxExplicit (w start : Nat) (cells : List Nat) : Except String (List (Nat × Nat)) :=
  (hcidxExplicitLoop w cells [] 0 start).map (fun r => r.1 ++ [(r.2.1 + 1, r.2.2)])

/-! ### Range query (qidx) ------------------------------------------------
From QIdxProcess::exec in read/hidx.rs: the data-writing loop over the
sorted (range, wholly-inside flag) pairs delivered by the region, and the
final zero padding computed from the n_data_bytes_written counter. -/

/-- One item delivered by region.sorted_hpx_ranges: a wholly-inside range
holding a number of rows, or a boundary range whose rows each carry the
combined keep test (not NaN and region.contains). -/
inductive RegionItem where
  | inside (n_rows : Nat)
  | boundary (rows : List Bool)

/-- The state of the write loop: the remaining row limit, the
n_data_bytes_written counter of the source, and the bytes actually
written to the output (an observer not present as such in the source). -/
structure QIdxState where
  limit : Nat
  n_data_bytes_written : Nat
  bytes_out : Nat
deriving DecidableEq, Repr

/-- One boundary-range row: written when the limit is positive and the
row passes the NaN and containment tests. -/
def qidxBoundaryRow (w : Nat) (st : QIdxState) (keep : Bool) : QIdxState :=
  if 0 < st.limit ∧ keep = true then
    ⟨st.limit - 1, st.n_data_bytes_written + w, st.bytes_out + w⟩
  else st

/-- One iteration of the write loop of QIdxProcess::exec. In the
wholly-inside branch the source computes n_rows = n_data_bytes_written /
row_byte_size; if n_rows < limit it copies the whole byte range and
subtracts n_rows from the limit, otherwise it copies limit rows, then
sets limit to 0 and only then adds limit * row_byte_size (now 0) to the
byte counter. -/
def qidxStep (w : Nat) (st : QIdxState) (item : RegionItem) : QIdxState :=
  match item with
  | .inside k =>
    let n_rows := st.n_data_bytes_written / w
    if n_rows < st.limit then
      ⟨st.limit - n_rows, st.n_data_bytes_written + k * w, st.bytes_out + k * w⟩
    else
      ⟨0, st.n_data_bytes_written + 0 * w, st.bytes_out + st.limit * w⟩
  | .boundary rows => rows.foldl (qidxBoundaryRow w) st

/-- The whole write loop of QIdxProcess::exec, starting from the declared
limit with empty counters. -/
def qidxRun (limit w : Nat) (items : List RegionItem) : QIdxState :=
  items.foldl (qidxStep w) ⟨limit, 0, 0⟩

/-- The final padding of QIdxProcess::exec: zero bytes completing
n_data_bytes_written (the counter, not the actual output size) to the
next multiple of 2880. -/
def qidxPadding (st : QIdxState) : List Nat :=
  if st.n_data_bytes_written % 2880 ≠ 0 then
    List.replicate (2880 - st.n_data_bytes_written % 2880) 0
  else []

/-! ### Data-block padding of the other two writers ---------------------- -/

/-- HDU::copy_blanks from read/slice.rs: zero bytes completing the data
length to the next multiple of 2880 (nothing when already aligned). -/
def copy_blanks (data_len : Nat) : List Nat :=
  if data_len % 2880 ≠ 0 then List.replicate (2880 - data_len % 2880) 0 else []

/-- The padding of hsort_files from read/hsort.rs: bytes of value 8
completing the stream position to the next multiple of 2880. -/
def hsort_padding (pos : Nat) : List Nat :=
  if pos % 2880 ≠ 0 then List.replicate (2880 - pos % 2880) 8 else []

/-! ### HCI queries -------------------------------------------------------
The query side of the cumulative index lives in the external cdshealpix
crate (OwnedCIndex / OwnedCIndexExplicit, HCIndex::get); only their
construction is in this repository. The two get operations are therefore
modelled from the spec. -/

/-- Modelled from the spec: HCIndex::get for the implicit shape, which is
missing from this repository (it lives in the cdshealpix collaborator):
a dense array lookup of the byte offset at the cell index. -/
def hciGetImplicit (map : List Nat) (h : Nat) : Nat := map.getD h 0

/-- Scan of the explicit entries keeping the offset of the last entry
whose cell is at most h (helper of hciGetExplicit). -/
def hciGetExplicitAux : Nat → List (Nat × Nat) → Nat → Nat
  | best, [], _ => best
  | best, (c, o) :: rest, h =>
    if c ≤ h then hciGetExplicitAux o rest h else hciGetExplicitAux best rest h

/-- Modelled from the spec: HCIndex::get for the explicit shape, which is
missing from this repository (it lives in the cdshealpix collaborator):
a binary search over the sorted (cell, byte offset) entries returning
the byte offset of the last entry at or before h (the offset of the
first entry when h precedes every stored cell). -/
def hciGetExplicit (entries : List (Nat × Nat)) (h : Nat) : Nat :=
  hciGetExplicitAux ((entries.head?.map Prod.snd).getD 0) entries h

/-- Abort structure of the implicit loop, tracked through the map length. -/
def chainFrom : Nat → List Nat → Prop
  | _, [] => True
  | L, c :: cs => ¬ (c + 1 < L) ∧ chainFrom (max L (c + 1)) cs

/-- The combinations of TFORM, TSCAL, TZERO and TNULL on which schema()
runs into an unimplemented (panicking) branch: a non-trivial scale or
offset on B or I together with TNULL, a non-trivial scale or offset on C
or M, TNULL on a P or Q descriptor, and (for a P or Q descriptor with
repeat count 1) a variable-length C or M element type with non-trivial
scale or offset. -/
def schemaTodoClass (h : BinTableColumnHeader) : Prop :=
  let scale : Rat := h.tscal.getD 1
  let offset : UIF64 := h.tzero.getD (.f64 0)
  match h.tform with
  | none => False
  | some (.B _) => h.tnull.isSome = true ∧ ¬ (scale = 1 ∨ offset.is_0 = true)
  | some (.I _) => h.tnull.isSome = true ∧ ¬ (scale = 1 ∨ offset.is_0 = true)
  | some (.C _) => ¬ (scale = 1 ∨ offset.is_0 = true)
  | some (.M _) => ¬ (scale = 1 ∨ offset.is_0 = true)
  | some (.P zo) =>
    h.tnull.isSome = true ∨
      (zo.is_repeat_count_eq_1 = true ∧ (zo.data_type = .C ∨ zo.data_type = .M) ∧
        ¬ (scale = 1 ∧ offset.is_0 = true))
  | some (.Q zo) =>
    h.tnull.isSome = true ∨
      (zo.is_repeat_count_eq_1 = true ∧ (zo.data_type = .C ∨ zo.data_type = .M) ∧
        ¬ (scale = 1 ∧ offset.is_0 = true))
  | some _ => False



theorem hcidxImplicitLoop_isOk (w : Nat) (cells : List Nat) :
    ∀ (map : List Nat) (off : Nat),
      (hcidxImplicitLoop w cells map off).isOk = true ↔ chainFrom map.length cells := by
  induction cells with
  | nil => intro map off; simp [hcidxImplicitLoop, chainFrom, Except.isOk, Except.toBool]
  | cons c cs ih =>
    intro map off
    by_cases hlt : c + 1 < map.length
    · simp [hcidxImplicitLoop, hlt, chainFrom, Except.isOk, Except.toBool]
    · have hlen : (map ++ List.replicate (c + 1 - map.length) off).length = max map.length (c + 1) := by
        simp [List.length_append, List.length_replicate]; omega
      simp only [hcidxImplicitLoop, if_neg hlt, chainFrom]
      rw [ih, hlen]
      tauto

theorem chainFrom_succ (cs : List Nat) : ∀ c : Nat, chainFrom (c + 1) cs ↔ List.Chain' (· ≤ ·) (c :: cs) := by
  induction cs with
  | nil => intro c; simp [chainFrom]
  | cons c2 cs2 ih =>
    intro c
    by_cases hle : c ≤ c2
    · have hmax : max (c + 1) (c2 + 1) = c2 + 1 := by omega
      simp only [chainFrom, hmax, ih, List.chain'_cons]
      constructor
      · rintro ⟨h1, h2⟩; exact ⟨hle, h2⟩
      · rintro ⟨h1, h2⟩; exact ⟨by omega, h2⟩
    · simp only [chainFrom, List.chain'_cons]
      constructor
      · rintro ⟨h1, _⟩; omega
      · rintro ⟨h1, _⟩; omega

theorem chainFrom_zero (cells : List Nat) : chainFrom 0 cells ↔ List.Chain' (· ≤ ·) cells := by
  cases cells with
  | nil => simp [chainFrom]
  | cons c cs =>
    simp only [chainFrom]
    have : max 0 (c + 1) = c + 1 := by omega
    rw [this, chainFrom_succ]
    simp



theorem except_map_isOk {α β : Type} (f : α → β) (e : Except String α) :
    (e.map f).isOk = e.isOk := by
  cases e <;> rfl

theorem hcidxImplicit_isOk (depth w start : Nat) (cells : List Nat) :
    (hcidxImplicit depth w start cells).isOk = true ↔ List.Chain' (· ≤ ·) cells := by
  unfold hcidxImplicit
  rw [except_map_isOk, hcidxImplicitLoop_isOk]
  simp [chainFrom_zero]

/-- The map length never shrinks along a successful run of the loop. -/
theorem hcidxImplicitLoop_len_mono (w : Nat) (cells : List Nat) :
    ∀ (map : List Nat) (off : Nat) (m : List Nat) (off2 : Nat),
      hcidxImplicitLoop w cells map off = .ok (m, off2) → map.length ≤ m.length := by
  induction cells with
  | nil =>
    intro map off m off2 hok
    simp [hcidxImplicitLoop] at hok
    simp [hok.1]
  | cons c0 cs ih =>
    intro map off m off2 hok
    by_cases hlt : c0 + 1 < map.length
    · simp [hcidxImplicitLoop, hlt] at hok
    · simp only [hcidxImplicitLoop, if_neg hlt] at hok
      have := ih _ _ _ _ hok
      simp [List.length_append, List.length_replicate] at this
      omega

/-- Along a successful run, every processed cell is at least the starting
map length minus one. -/
theorem hcidxImplicitLoop_cells_ge (w : Nat) (cells : List Nat) :
    ∀ (map : List Nat) (off : Nat) (m : List Nat) (off2 : Nat),
      hcidxImplicitLoop w cells map off = .ok (m, off2) →
      ∀ c ∈ cells, map.length ≤ c + 1 := by
  induction cells with
  | nil => intro map off m off2 _ c hc; cases hc
  | cons c0 cs ih =>
    intro map off m off2 hok c hc
    by_cases hlt : c0 + 1 < map.length
    · simp [hcidxImplicitLoop, hlt] at hok
    · simp only [hcidxImplicitLoop, if_neg hlt] at hok
      rcases List.mem_cons.mp hc with hc | hc
      · omega
      · have := ih _ _ _ _ hok c hc
        simp [List.length_append, List.length_replicate] at this
        omega

/-- Along a successful run, every processed cell lies below the final map
length. -/
theorem hcidxImplicitLoop_cells_lt (w : Nat) (cells : List Nat) :
    ∀ (map : List Nat) (off : Nat) (m : List Nat) (off2 : Nat),
      hcidxImplicitLoop w cells map off = .ok (m, off2) →
      ∀ c ∈ cells, c + 1 ≤ m.length := by
  induction cells with
  | nil => intro map off m off2 _ c hc; cases hc
  | cons c0 cs ih =>
    intro map off m off2 hok c hc
    by_cases hlt : c0 + 1 < map.length
    · simp [hcidxImplicitLoop, hlt] at hok
    · simp only [hcidxImplicitLoop, if_neg hlt] at hok
      rcases List.mem_cons.mp hc with hc | hc
      · subst hc
        have hmono := hcidxImplicitLoop_len_mono w cs _ _ _ _ hok
        simp [List.length_append, List.length_replicate] at hmono
        omega
      · exact ih _ _ _ _ hok c hc



/-- Exact content of the map produced by a successful run of the implicit
loop: beyond the initial map, entry h holds the starting offset plus the
row size times the number of processed rows whose cell is below h. -/
theorem hcidxImplicitLoop_char (w : Nat) (cells : List Nat) :
    ∀ (map : List Nat) (off : Nat) (m : List Nat) (off2 : Nat),
      hcidxImplicitLoop w cells map off = .ok (m, off2) →
      off2 = off + w * cells.length ∧
      (∀ h, h < map.length → m.getD h 0 = map.getD h 0) ∧
      (∀ h, map.length ≤ h → h < m.length →
        m.getD h 0 = off + w * cells.countP (fun c => decide (c < h))) := by
  induction cells with
  | nil =>
    intro map off m off2 hok
    simp [hcidxImplicitLoop] at hok
    obtain ⟨hm, ho⟩ := hok
    subst hm; subst ho
    refine ⟨by simp, ?_, ?_⟩
    · intro h _; rfl
    · intro h h1 h2; omega
  | cons c0 cs ih =>
    intro map off m off2 hok
    by_cases hlt : c0 + 1 < map.length
    · simp [hcidxImplicitLoop, hlt] at hok
    · simp only [hcidxImplicitLoop, if_neg hlt] at hok
      set newmap := map ++ List.replicate (c0 + 1 - map.length) off with hnewmap
      have hnewlen : newmap.length = max map.length (c0 + 1) := by
        simp [hnewmap, List.length_append, List.length_replicate]; omega
      obtain ⟨hoff, hstab, hchar⟩ := ih _ _ _ _ hok
      have hcsge := hcidxImplicitLoop_cells_ge w cs _ _ _ _ hok
      refine ⟨by simp [hoff]; ring, ?_, ?_⟩
      · intro h hh
        rw [hstab h (by omega)]
        exact List.getD_append _ _ _ _ hh
      · intro h h1 h2
        by_cases hcase : h < newmap.length
        · -- h falls in the freshly pushed replicate region: value off
          have hval : m.getD h 0 = off := by
            rw [hstab h hcase]
            rw [hnewmap, List.getD_append_right _ _ _ _ h1]
            have hidx : h - map.length < c0 + 1 - map.length := by omega
            simp [List.getD]
            rw [List.getElem?_replicate]
            simp [hidx]
          rw [hval]
          have hcnt : (c0 :: cs).countP (fun c => decide (c < h)) = 0 := by
            rw [List.countP_eq_zero]
            intro c hc
            rcases List.mem_cons.mp hc with hc | hc
            · subst hc; simp; omega
            · have := hcsge c hc
              simp; omega
          rw [hcnt]
          simp
        · -- h beyond: recursion counts one more processed row (cell c0 < h)
          have hh2 : newmap.length ≤ h := by omega
          rw [hchar h hh2 h2, List.countP_cons]
          have hc0 : decide (c0 < h) = true := by simp; omega
          rw [hc0]
          simp
          ring
      


/-- Exact content of a successfully built implicit index: entry h holds
the data starting byte plus the row size times the number of rows whose
cell is below h. -/
theorem hcidxImplicit_char (depth w start : Nat) (cells : List Nat) (m : List Nat)
    (hok : hcidxImplicit depth w start cells = .ok m) :
    n_hash depth + 1 ≤ m.length ∧
    ∀ h, h < m.length → m.getD h 0 = start + w * cells.countP (fun c => decide (c < h)) := by
  unfold hcidxImplicit at hok
  cases hloop : hcidxImplicitLoop w cells [] start with
  | error e => rw [hloop] at hok; simp [Except.map] at hok
  | ok p =>
    rw [hloop] at hok
    simp only [Except.map] at hok
    obtain ⟨m0, off2⟩ := p
    injection hok with hok
    obtain ⟨hoff, _, hchar⟩ := hcidxImplicitLoop_char w cells [] start m0 off2 hloop
    have hcellslt := hcidxImplicitLoop_cells_lt w cells [] start m0 off2 hloop
    have hmlen : m.length = m0.length + (n_hash depth + 1 - m0.length) := by
      rw [← hok]; simp [List.length_append, List.length_replicate]
    constructor
    · omega
    · intro h hh
      rw [hmlen] at hh
      by_cases hcase : h < m0.length
      · rw [← hok, List.getD_append _ _ _ _ hcase]
        exact hchar h (by simp) hcase
      · have hge : m0.length ≤ h := by omega
        have hval : m.getD h 0 = off2 := by
          rw [← hok, List.getD_append_right _ _ _ _ hge]
          simp [List.getD]
          rw [List.getElem?_replicate]
          have : h - m0.length < n_hash depth + 1 - m0.length := by omega
          simp [this]
        rw [hval, hoff]
        have hcnt : cells.countP (fun c => decide (c < h)) = cells.length := by
          rw [List.countP_eq_length]
          intro c hc
          have := hcellslt c hc
          simp; omega
        rw [hcnt]



theorem hcidxExplicitLoop_inv (w : Nat) (cells : List Nat) :
    ∀ (entries : List (Nat × Nat)) (prev off : Nat) (es : List (Nat × Nat)) (p2 off2 : Nat),
      hcidxExplicitLoop w cells entries prev off = .ok (es, p2, off2) →
      (∀ e ∈ entries, e.2 ≤ off) →
      List.Chain' (· ≤ ·) (entries.map Prod.snd) →
      off ≤ off2 ∧ (∀ e ∈ es, e.2 ≤ off2) ∧ List.Chain' (· ≤ ·) (es.map Prod.snd) := by
  induction cells with
  | nil =>
    intro entries prev off es p2 off2 hok hb hc
    simp [hcidxExplicitLoop] at hok
    obtain ⟨he, _, ho⟩ := hok
    subst he; subst ho
    exact ⟨le_refl _, hb, hc⟩
  | cons c0 cs ih =>
    intro entries prev off es p2 off2 hok hb hc
    by_cases hlt : c0 + 1 < prev
    · simp [hcidxExplicitLoop, hlt] at hok
    · simp only [hcidxExplicitLoop, if_neg hlt] at hok
      by_cases hpush : c0 > prev ∨ (c0 = 0 ∧ entries = [])
      · rw [if_pos hpush] at hok
        have hb2 : ∀ e ∈ entries ++ [(c0, off)], e.2 ≤ off + w := by
          intro e he
          rcases List.mem_append.mp he with he | he
          · have := hb e he; omega
          · simp at he; subst he; omega
        have hc2 : List.Chain' (· ≤ ·) ((entries ++ [(c0, off)]).map Prod.snd) := by
          rw [List.map_append]
          rw [List.chain'_append]
          refine ⟨hc, by simp, ?_⟩
          intro x hx y hy
          simp at hy
          subst hy
          rcases List.mem_of_mem_getLast? hx with hx2
          obtain ⟨e, he, hex⟩ := List.mem_map.mp hx2
          rw [← hex]
          exact hb e he
        obtain ⟨h1, h2, h3⟩ := ih _ _ _ _ _ _ hok hb2 hc2
        exact ⟨by omega, h2, h3⟩
      · rw [if_neg hpush] at hok
        have hb2 : ∀ e ∈ entries, e.2 ≤ off + w := by
          intro e he; have := hb e he; omega
        obtain ⟨h1, h2, h3⟩ := ih _ _ _ _ _ _ hok hb2 hc
        exact ⟨by omega, h2, h3⟩

theorem hcidxExplicit_offsets_chain (w start : Nat) (cells : List Nat) (es : List (Nat × Nat))
    (hok : hcidxExplicit w start cells = .ok es) :
    List.Chain' (· ≤ ·) (es.map Prod.snd) := by
  unfold hcidxExplicit at hok
  cases hloop : hcidxExplicitLoop w cells [] 0 start with
  | error e => rw [hloop] at hok; simp [Except.map] at hok
  | ok r =>
    rw [hloop] at hok
    simp only [Except.map] at hok
    obtain ⟨es0, p2, off2⟩ := r
    injection hok with hok
    obtain ⟨_, hb, hchain⟩ :=
      hcidxExplicitLoop_inv w cells [] 0 start es0 p2 off2 hloop (by simp) (by simp)
    rw [← hok, List.map_append]
    rw [List.chain'_append]
    refine ⟨hchain, by simp, ?_⟩
    intro x hx y hy
    simp at hy
    subst hy
    obtain ⟨e, he, hex⟩ := List.mem_map.mp (List.mem_of_mem_getLast? hx)
    rw [← hex]
    exact hb e he



theorem chain_le_drop_middle {x y : Nat} {l : List Nat}
    (h : List.Chain' (· ≤ ·) (x :: y :: l)) : List.Chain' (· ≤ ·) (x :: l) := by
  cases l with
  | nil => simp
  | cons z zs =>
    simp [List.chain'_cons] at h ⊢
    exact ⟨le_trans h.1 h.2.1, h.2.2⟩

theorem hciGetExplicitAux_mono_best :
    ∀ (es : List (Nat × Nat)) (b1 b2 h : Nat), b1 ≤ b2 →
      hciGetExplicitAux b1 es h ≤ hciGetExplicitAux b2 es h := by
  intro es
  induction es with
  | nil => intro b1 b2 h hb; exact hb
  | cons e rest ih =>
    intro b1 b2 h hb
    obtain ⟨c, o⟩ := e
    by_cases hch : c ≤ h
    · simp [hciGetExplicitAux, hch]
    · simp only [hciGetExplicitAux, if_neg hch]
      exact ih b1 b2 h hb

theorem hciGetExplicitAux_mono_h :
    ∀ (es : List (Nat × Nat)) (b h : Nat),
      List.Chain' (· ≤ ·) (b :: es.map Prod.snd) →
      hciGetExplicitAux b es h ≤ hciGetExplicitAux b es (h + 1) := by
  intro es
  induction es with
  | nil => intro b h _; exact le_refl _
  | cons e rest ih =>
    intro b h hchain
    obtain ⟨c, o⟩ := e
    have hbo : b ≤ o := by
      simp [List.chain'_cons] at hchain
      exact hchain.1
    have hrest : List.Chain' (· ≤ ·) (o :: rest.map Prod.snd) := by
      simp [List.chain'_cons] at hchain
      exact hchain.2
    by_cases hch : c ≤ h
    · have hch1 : c ≤ h + 1 := by omega
      simp only [hciGetExplicitAux, if_pos hch, if_pos hch1]
      exact ih o h hrest
    · by_cases hch1 : c ≤ h + 1
      · simp only [hciGetExplicitAux, if_neg hch, if_pos hch1]
        exact le_trans (hciGetExplicitAux_mono_best rest b o h hbo) (ih o h hrest)
      · simp only [hciGetExplicitAux, if_neg hch, if_neg hch1]
        exact ih b h (chain_le_drop_middle hchain)

theorem hciGetExplicit_mono (es : List (Nat × Nat)) (h : Nat)
    (hchain : List.Chain' (· ≤ ·) (es.map Prod.snd)) :
    hciGetExplicit es h ≤ hciGetExplicit es (h + 1) := by
  unfold hciGetExplicit
  apply hciGetExplicitAux_mono_h
  cases es with
  | nil => simp
  | cons e rest =>
    obtain ⟨c, o⟩ := e
    simp only [List.map_cons] at hchain
    show List.Chain' (· ≤ ·) (o :: o :: rest.map Prod.snd)
    exact List.chain'_cons.mpr ⟨le_refl o, hchain⟩



/-- Claim C3 (counterexample): on the two-row input with cells 5 then 4,
the implicit build aborts although the condition stated by the claim,
hash + 1 < prev_cell (here 4 + 1 < 5), does not hold. -/
theorem C3_counterexample :
    (hcidxImplicit 0 8 2880 [5, 4]).isOk = false ∧ ¬ (4 + 1 < 5) := by
  constructor
  · rfl
  · omega

/-- Claim C3 (amended): scanning rows in file order, the implicit-shape
build aborts with the file-not-sorted error if and only if some row's
hash at the index depth is strictly smaller than the preceding row's
hash (the source tests hash + 1 < map.len() where map.len() equals
prev_cell + 1); otherwise the scan completes and the index is produced. -/
theorem C3_file_not_sorted_iff :
    ∀ (depth w start : Nat) (cells : List Nat),
      (hcidxImplicit depth w start cells).isOk = true ↔ List.Chain' (· ≤ ·) cells := by
  intro depth w start cells
  exact hcidxImplicit_isOk depth w start cells

/-- Claim C9: for an index that builds without error, byte offsets are
monotone non-decreasing in the cell number, for the implicit shape
(array get within the built map) and for the explicit shape (predecessor
search over the built entries). -/
theorem C9_hci_monotone :
    (∀ depth w start cells m h, hcidxImplicit depth w start cells = .ok m →
       h + 1 < m.length → hciGetImplicit m h ≤ hciGetImplicit m (h + 1)) ∧
    (∀ w start cells es h, hcidxExplicit w start cells = .ok es →
       hciGetExplicit es h ≤ hciGetExplicit es (h + 1)) := by
  constructor
  · intro depth w start cells m h hok hh
    obtain ⟨hlen, hchar⟩ := hcidxImplicit_char depth w start cells m hok
    unfold hciGetImplicit
    rw [hchar h (by omega), hchar (h + 1) hh]
    have : cells.countP (fun c => decide (c < h)) ≤ cells.countP (fun c => decide (c < h + 1)) := by
      apply List.countP_mono_left
      intro c _ hc
      simp at hc ⊢
      omega
    exact Nat.add_le_add_left (Nat.mul_le_mul_left w this) start
  · intro w start cells es h hok
    exact hciGetExplicit_mono es h (hcidxExplicit_offsets_chain w start cells es hok)

/-- Witness for C9 at a concrete three-row input (cells 0, 0, 3 at depth
0, row width 8, data start 2880). -/
theorem C9_hci_monotone_witness :
    hciGetImplicit
        [2880, 2896, 2896, 2896, 2904, 2904, 2904, 2904, 2904, 2904, 2904, 2904, 2904] 0 ≤
      hciGetImplicit
        [2880, 2896, 2896, 2896, 2904, 2904, 2904, 2904, 2904, 2904, 2904, 2904, 2904] 1 ∧
    hciGetExplicit [(0, 2880), (3, 2896), (4, 2904)] 1 ≤
      hciGetExplicit [(0, 2880), (3, 2896), (4, 2904)] 2 :=
  ⟨C9_hci_monotone.1 0 8 2880 [0, 0, 3] _ 0 (by rfl) (by decide),
   C9_hci_monotone.2 8 2880 [0, 0, 3] _ 1 (by rfl)⟩



/-- The number of cells at any depth is at least 12. -/
theorem n_hash_pos (depth : Nat) : 12 ≤ n_hash depth := by
  unfold n_hash
  have : 1 ≤ 4 ^ depth := Nat.one_le_pow _ _ (by omega)
  omega

/-- Claim C10: a row whose longitude or latitude storage bits are NaN is
assigned HEALPix cell 0 by the position provider, and any cell-0 row of a
successful implicit build is accounted for inside cell 0's byte range
[get(0), get(1)). -/
theorem C10_nan_rows_in_cell0 :
    (∀ (hash : Nat → Nat → Nat) (lon_start lat_start : Nat) (row : List Nat) (lonB latB : Nat),
       readF64Bits row lon_start = some lonB → readF64Bits row lat_start = some latB →
       (f64_is_nan lonB || f64_is_nan latB) = true →
       hpxCell hash lon_start lat_start row = some 0) ∧
    (∀ depth w start cells m i,
       hcidxImplicit depth w start cells = .ok m →
       cells.get? i = some 0 →
       hciGetImplicit m 0 ≤ start + i * w ∧ start + (i + 1) * w ≤ hciGetImplicit m 1) := by
  constructor
  · intro hash lon_start lat_start row lonB latB hlon hlat hnan
    simp [hpxCell, hlon, hlat]
    intro h1 h2
    rw [h1, h2] at hnan
    simp at hnan
  · intro depth w start cells m i hok hcell
    obtain ⟨hlen, hchar⟩ := hcidxImplicit_char depth w start cells m hok
    have hsorted : List.Chain' (· ≤ ·) cells := by
      rw [← hcidxImplicit_isOk depth w start cells, hok]
      rfl
    have hpair : List.Pairwise (· ≤ ·) cells := List.chain'_iff_pairwise.mp hsorted
    have hi : i < cells.length := by
      by_contra hge
      rw [List.get?_eq_none.mpr (by omega)] at hcell
      cases hcell
    have hii : cells[i] = 0 := by
      have h2 := hcell
      rw [List.get?_eq_getElem?, List.getElem?_eq_getElem hi] at h2
      exact Option.some.inj h2
    have hzero : ∀ j, (hj : j < cells.length) → j ≤ i → cells[j] = 0 := by
      intro j hj hle
      rcases Nat.lt_or_ge j i with hlt | hge
      · have hle2 := (List.pairwise_iff_get.mp hpair) ⟨j, hj⟩ ⟨i, hi⟩ hlt
        simp [List.get_eq_getElem] at hle2
        omega
      · have hji : j = i := by omega
        subst hji
        exact hii
    have hnh := n_hash_pos depth
    have h0lt : 0 < m.length := by omega
    have h1lt : 1 < m.length := by omega
    constructor
    · unfold hciGetImplicit
      rw [hchar 0 h0lt]
      have hc0 : cells.countP (fun c => decide (c < 0)) = 0 := by
        rw [List.countP_eq_zero]
        intro c _
        simp
      rw [hc0]
      simp
    · unfold hciGetImplicit
      rw [hchar 1 h1lt]
      have hlen2 : (cells.take (i + 1)).length = i + 1 := by
        rw [List.length_take]
        omega
      have hall : ∀ c ∈ cells.take (i + 1), (fun c => decide (c < 1)) c = true := by
        intro c hc
        obtain ⟨j, hj, hcj⟩ := List.getElem_of_mem hc
        have hjlen : j < cells.length := by
          have h3 := List.length_take_le (i + 1) cells
          omega
        rw [List.getElem_take] at hcj
        have hjle : j ≤ i := by
          rw [hlen2] at hj
          omega
        have h4 := hzero j hjlen hjle
        simp
        omega
      have htake : (cells.take (i + 1)).countP (fun c => decide (c < 1)) = i + 1 := by
        rw [List.countP_eq_length.mpr hall]
        exact hlen2
      have hsplit : cells.countP (fun c => decide (c < 1)) =
          (cells.take (i + 1)).countP (fun c => decide (c < 1)) +
            (cells.drop (i + 1)).countP (fun c => decide (c < 1)) := by
        rw [← List.countP_append, List.take_append_drop]
      have hcnt : i + 1 ≤ cells.countP (fun c => decide (c < 1)) := by omega
      have hmul : (i + 1) * w ≤ w * cells.countP (fun c => decide (c < 1)) := by
        calc (i + 1) * w = w * (i + 1) := by ring
        _ ≤ w * cells.countP (fun c => decide (c < 1)) := Nat.mul_le_mul_left w hcnt
      omega



/-- Witness for C10: a quiet-NaN longitude (bytes 7F F8 00 00 00 00 00 01)
maps to cell 0 under any hash function, and the cell-0 row of the
concrete build of C9's witness lies inside [get(0), get(1)). -/
theorem C10_nan_rows_in_cell0_witness :
    hpxCell (fun _ _ => 7) 0 0 [127, 248, 0, 0, 0, 0, 0, 1] = some 0 ∧
    (hciGetImplicit
        [2880, 2896, 2896, 2896, 2904, 2904, 2904, 2904, 2904, 2904, 2904, 2904, 2904] 0 ≤
          2880 + 0 * 8 ∧
     2880 + (0 + 1) * 8 ≤
       hciGetImplicit
         [2880, 2896, 2896, 2896, 2904, 2904, 2904, 2904, 2904, 2904, 2904, 2904, 2904] 1) :=
  ⟨C10_nan_rows_in_cell0.1 (fun _ _ => 7) 0 0 [127, 248, 0, 0, 0, 0, 0, 1]
      9221120237041090561 9221120237041090561 (by rfl) (by rfl) (by decide),
   C10_nan_rows_in_cell0.2 0 8 2880 [0, 0, 3] _ 0 (by rfl) (by rfl)⟩

/-- heap_array_data_type reaches its unimplemented branch exactly for a
C or M element type with non-trivial scale or offset. -/
theorem heap_array_data_type_todo_iff (vdt : VariableLenghtArrayDataType)
    (hap : HeapArrayParam) (scale : Rat) (offset : UIF64) :
    heap_array_data_type vdt hap scale offset = HeapOutcome.todoPanic ↔
      ((vdt = .C ∨ vdt = .M) ∧ ¬ (scale = 1 ∧ offset.is_0 = true)) := by
  cases vdt <;> simp only [heap_array_data_type] <;> (try split) <;> (try split) <;> simp_all

/-- Claim C4 (amended): for every column header carrying a TFORM, schema()
returns exactly one outcome; that outcome is the unimplemented panic
exactly on the combinations of schemaTodoClass, and a single schema
variant (with at most an ignored-modifier warning) on all others. -/
theorem C4_schema_total_except_todo (h : BinTableColumnHeader)
    (ht : h.tform.isSome = true) :
    (∃ o, h.schema = some o) ∧
    (h.schema = some SchemaOutcome.todoPanic ↔ schemaTodoClass h) := by
  obtain ⟨tform, tnull, tscal, tzero, tdim⟩ := h
  obtain ⟨tf, htf⟩ := Option.isSome_iff_exists.mp ht
  simp only at htf
  subst htf
  constructor
  · exact ⟨_, rfl⟩
  · cases tf with
    | L rc =>
      simp only [BinTableColumnHeader.schema, schemaTodoClass, Option.map_some',
        Option.some.injEq]
      constructor
      · intro hEq
        rcases hn : rc.repeat_count with _ | _ | n <;> rw [hn] at hEq <;> simp_all
      · intro hC; exact hC.elim
    | X rc =>
      simp only [BinTableColumnHeader.schema, schemaTodoClass, Option.map_some',
        Option.some.injEq]
      constructor
      · intro hEq
        rcases hn : rc.repeat_count with _ | n <;> rw [hn] at hEq <;> simp_all
      · intro hC; exact hC.elim
    | A rc =>
      simp only [BinTableColumnHeader.schema, schemaTodoClass, Option.map_some',
        Option.some.injEq]
      constructor
      · intro hEq
        rcases hn : rc.repeat_count with _ | _ | n <;> rw [hn] at hEq <;> simp_all
      · intro hC; exact hC.elim
    | E rc =>
      simp only [BinTableColumnHeader.schema, schemaTodoClass, Option.map_some',
        Option.some.injEq]
      constructor
      · intro hEq
        split at hEq <;>
          (rcases hn : rc.repeat_count with _ | _ | n <;> rw [hn] at hEq <;> simp_all)
      · intro hC; exact hC.elim
    | D rc =>
      simp only [BinTableColumnHeader.schema, schemaTodoClass, Option.map_some',
        Option.some.injEq]
      constructor
      · intro hEq
        split at hEq <;>
          (rcases hn : rc.repeat_count with _ | _ | n <;> rw [hn] at hEq <;> simp_all)
      · intro hC; exact hC.elim
    | J rc =>
      simp only [BinTableColumnHeader.schema, schemaTodoClass, Option.map_some',
        Option.some.injEq]
      constructor
      · intro hEq
        split at hEq
        · rcases hn : rc.repeat_count with _ | _ | n <;> rw [hn] at hEq <;>
            rcases tnull with _ | null <;> simp_all
        · split at hEq
          · rcases hn : rc.repeat_count with _ | _ | n <;> rw [hn] at hEq <;>
              rcases tnull with _ | null <;> simp_all
          · rcases hn : rc.repeat_count with _ | _ | n <;> rw [hn] at hEq <;> simp_all
      · intro hC; exact hC.elim
    | K rc =>
      simp only [BinTableColumnHeader.schema, schemaTodoClass, Option.map_some',
        Option.some.injEq]
      constructor
      · intro hEq
        split at hEq
        · rcases hn : rc.repeat_count with _ | _ | n <;> rw [hn] at hEq <;>
            rcases tnull with _ | null <;> simp_all
        · split at hEq
          · rcases hn : rc.repeat_count with _ | _ | n <;> rw [hn] at hEq <;>
              rcases tnull with _ | null <;> simp_all
          · rcases hn : rc.repeat_count with _ | _ | n <;> rw [hn] at hEq <;> simp_all
      · intro hC; exact hC.elim
    | B rc =>
      simp only [BinTableColumnHeader.schema, schemaTodoClass, Option.map_some',
        Option.some.injEq]
      constructor
      · intro hEq
        split at hEq
        · rcases hn : rc.repeat_count with _ | _ | n <;> rw [hn] at hEq <;>
            rcases tnull with _ | null <;> simp_all
        · split at hEq
          · rcases hn : rc.repeat_count with _ | _ | n <;> rw [hn] at hEq <;>
              rcases tnull with _ | null <;> simp_all
          · rcases tnull with _ | null
            · simp only [Option.isSome_none, Bool.false_eq_true, if_false] at hEq
              rcases hn : rc.repeat_count with _ | _ | n <;> rw [hn] at hEq <;> simp_all
            · simp_all
      · intro hC
        obtain ⟨hnull, hguard⟩ := hC
        rw [if_neg (by simp_all)]
        rw [if_neg (by simp_all)]
        rw [if_pos hnull]
    | I rc =>
      simp only [BinTableColumnHeader.schema, schemaTodoClass, Option.map_some',
        Option.some.injEq]
      constructor
      · intro hEq
        split at hEq
        · rcases hn : rc.repeat_count with _ | _ | n <;> rw [hn] at hEq <;>
            rcases tnull with _ | null <;> simp_all
        · split at hEq
          · rcases hn : rc.repeat_count with _ | _ | n <;> rw [hn] at hEq <;>
              rcases tnull with _ | null <;> simp_all
          · rcases tnull with _ | null
            · simp only [Option.isSome_none, Bool.false_eq_true, if_false] at hEq
              rcases hn : rc.repeat_count with _ | _ | n <;> rw [hn] at hEq <;> simp_all
            · simp_all
      · intro hC
        obtain ⟨hnull, hguard⟩ := hC
        rw [if_neg (by simp_all)]
        rw [if_neg (by simp_all)]
        rw [if_pos hnull]
    | C rc =>
      simp only [BinTableColumnHeader.schema, schemaTodoClass, Option.map_some',
        Option.some.injEq]
      constructor
      · intro hEq
        split at hEq
        · rcases hn : rc.repeat_count with _ | _ | n <;> rw [hn] at hEq <;> simp_all
        · simp_all
      · intro hC
        rw [if_neg (by simp_all)]
    | M rc =>
      simp only [BinTableColumnHeader.schema, schemaTodoClass, Option.map_some',
        Option.some.injEq]
      constructor
      · intro hEq
        split at hEq
        · rcases hn : rc.repeat_count with _ | _ | n <;> rw [hn] at hEq <;> simp_all
        · simp_all
      · intro hC
        rw [if_neg (by simp_all)]
    | P zo =>
      simp only [BinTableColumnHeader.schema, schemaTodoClass, Option.map_some',
        Option.some.injEq]
      constructor
      · intro hEq
        split at hEq
        · simp_all
        · split at hEq
          · cases hh : heap_array_data_type zo.data_type ⟨zo.max_len⟩ (tscal.getD 1)
                (tzero.getD (UIF64.f64 0)) with
            | ok s warn => rw [hh] at hEq; simp at hEq
            | todoPanic =>
              have hto := (heap_array_data_type_todo_iff _ _ _ _).mp hh
              right
              exact ⟨by assumption, hto.1, hto.2⟩
          · simp_all
      · intro hC
        rcases tnull with _ | null
        · rcases hC with hC | ⟨hrc1, hdt, hgd⟩
          · simp at hC
          · rw [if_neg (by simp), if_pos hrc1,
              (heap_array_data_type_todo_iff _ _ _ _).mpr ⟨hdt, by tauto⟩]
        · rw [if_pos (by simp)]
    | Q zo =>
      simp only [BinTableColumnHeader.schema, schemaTodoClass, Option.map_some',
        Option.some.injEq]
      constructor
      · intro hEq
        split at hEq
        · simp_all
        · split at hEq
          · cases hh : heap_array_data_type zo.data_type ⟨zo.max_len⟩ (tscal.getD 1)
                (tzero.getD (UIF64.f64 0)) with
            | ok s warn => rw [hh] at hEq; simp at hEq
            | todoPanic =>
              have hto := (heap_array_data_type_todo_iff _ _ _ _).mp hh
              right
              exact ⟨by assumption, hto.1, hto.2⟩
          · simp_all
      · intro hC
        rcases tnull with _ | null
        · rcases hC with hC | ⟨hrc1, hdt, hgd⟩
          · simp at hC
          · rw [if_neg (by simp), if_pos hrc1,
              (heap_array_data_type_todo_iff _ _ _ _).mpr ⟨hdt, by tauto⟩]
        · rw [if_pos (by simp)]



/-- Claim C4 (counterexample): a column with TFORM of type C, TSCAL=2 and
TZERO=3 makes schema() hit an unimplemented branch and panic, so the
mapping is not total as claimed. -/
theorem C4_counterexample :
    BinTableColumnHeader.schema ⟨some (.C ⟨none, none⟩), none, some 2, some (.f64 3), none⟩ =
      some SchemaOutcome.todoPanic ∧
    ¬ ∃ s w,
      BinTableColumnHeader.schema ⟨some (.C ⟨none, none⟩), none, some 2, some (.f64 3), none⟩ =
        some (SchemaOutcome.ok s w) := by
  constructor
  · rfl
  · rintro ⟨s, w, hw⟩
    rw [show BinTableColumnHeader.schema
        ⟨some (.C ⟨none, none⟩), none, some 2, some (.f64 3), none⟩ =
        some SchemaOutcome.todoPanic from rfl] at hw
    simp at hw

/-- Witness for C4 at a concrete plain-J column header. -/
theorem C4_schema_total_except_todo_witness :
    (∃ o, BinTableColumnHeader.schema ⟨some (.J ⟨some 1, none⟩), none, none, none, none⟩ =
      some o) ∧
    (BinTableColumnHeader.schema ⟨some (.J ⟨some 1, none⟩), none, none, none, none⟩ =
        some SchemaOutcome.todoPanic ↔
      schemaTodoClass ⟨some (.J ⟨some 1, none⟩), none, none, none, none⟩) :=
  C4_schema_total_except_todo ⟨some (.J ⟨some 1, none⟩), none, none, none, none⟩ (by rfl)

/-- Claim C1 (code evaluation at the failing input): for TFORM of type I
with repeat count 1, TSCAL=1 and TZERO=32768, schema() yields the signed
Short variant (the normal-case guard scale == 1.0 || offset.is_0() short
circuits on TSCAL=1, leaving the unsigned-case branch unreachable), so
storage bytes 0x8000 decode through visit_i16 to -32768 instead of the
claimed 0u16; the to_u16 helper that would realize the claimed wrapping
sum exists but is never reached on this path. -/
theorem C1_unsigned_promotion_missing :
    BinTableColumnHeader.schema
        ⟨some (.I ⟨some 1, none⟩), none, some 1, some (.u64 32768), none⟩ =
      some (SchemaOutcome.ok Schema.Short false) ∧
    decodeField Schema.Short [128, 0] 0 = some (FieldValue.i16 (-32768)) ∧
    to_u16 (-32768) = 0 ∧ to_u16 32767 = 65535 := by
  refine ⟨rfl, by decide, by decide, by decide⟩

/-- Claim C2 (code evaluation at the failing input): with a declared
limit of one row, a single wholly-inside range of two rows (row width 16)
is copied whole, the limit is left at 1, and two rows reach the output. -/
theorem C2_limit_not_enforced :
    (qidxRun 1 16 [RegionItem.inside 2]).bytes_out / 16 = 2 ∧
    (qidxRun 1 16 [RegionItem.inside 2]).limit = 1 ∧ ¬ (2 ≤ 1) := by
  refine ⟨by decide, by decide, by omega⟩

/-- Claim C5 (code evaluation at the failing inputs): HDU::copy_blanks
does pad with zero bytes to a 2880 multiple, but hsort pads with bytes of
value 8, and the range-query padding is computed from the undercounted
n_data_bytes_written, so with limit 1 and two wholly-inside two-row
ranges (row width 16) the written data plus padding is 16 bytes past a
block boundary. -/
theorem C5_zero_padding_broken :
    (∀ len : Nat, (len + (copy_blanks len).length) % 2880 = 0 ∧
       (copy_blanks len).all (fun b => decide (b = 0)) = true) ∧
    hsort_padding 16 = List.replicate 2864 8 ∧
    ((qidxRun 1 16 [RegionItem.inside 2, RegionItem.inside 2]).bytes_out +
        (qidxPadding (qidxRun 1 16 [RegionItem.inside 2, RegionItem.inside 2])).length) % 2880
      = 16 := by
  refine ⟨?_, by unfold hsort_padding; norm_num, ?_⟩
  · intro len
    unfold copy_blanks
    by_cases hz : len % 2880 ≠ 0
    · rw [if_pos hz]
      constructor
      · rw [List.length_replicate]
        omega
      · simp [List.all_eq_true, List.mem_replicate]
    · rw [if_neg hz]
      simp at hz
      constructor
      · simp [hz]
      · simp
  · have h1 : qidxRun 1 16 [RegionItem.inside 2, RegionItem.inside 2] =
        ⟨0, 32, 48⟩ := by decide
    rw [h1]
    have h2 : qidxPadding ⟨0, 32, 48⟩ = List.replicate 2848 0 := by
      unfold qidxPadding
      norm_num
    rw [h2, List.length_replicate]
    decide

/-- Claim C6 (counterexample): in header-less mode the export of the
two-row 1J table emits a leading newline (the first row's separator reset
writes a newline before the first value), so the output is not the
claimed bytes. -/
theorem C6_counterexample :
    convert_to_csv true [none] [(Schema.Int, 0)] [[0, 0, 0, 1], [0, 0, 0, 2]] =
      some "\n1\n2\n" ∧ ("\n1\n2\n" : String) ≠ "1\n2\n" := by
  refine ⟨by decide, by decide⟩

/-- Claim C6 (amended): exporting the two-row 1J table yields
col_0 newline 1 newline 2 newline with the header, and newline 1 newline
2 newline in header-less mode (the leading newline kept). -/
theorem C6_csv_output :
    convert_to_csv false [none] [(Schema.Int, 0)] [[0, 0, 0, 1], [0, 0, 0, 2]] =
      some "col_0\n1\n2\n" ∧
    convert_to_csv true [none] [(Schema.Int, 0)] [[0, 0, 0, 1], [0, 0, 0, 2]] =
      some "\n1\n2\n" := by
  refine ⟨by decide, by decide⟩



/-- Claim C8: for every nullable integer schema variant, decoding reads
the raw storage value and compares it (before any promotion) with the
sentinel: equality gives null, anything else the promoted value; in
particular a 1J column with TNULL = -2147483648 gets the NullableInt
schema and decodes storage 0x80000000 as null. -/
theorem C8_tnull_storage_compare :
    (∀ (null v : Nat) (row : List Nat) (f : Nat), readU8 row f = some v →
       decodeField (Schema.NullableByte null) row f =
         some (if v = null then FieldValue.nullVal else FieldValue.i8 (to_i8 v))) ∧
    (∀ (null v : Int) (row : List Nat) (f : Nat), readI16 row f = some v →
       decodeField (Schema.NullableShort null) row f =
         some (if v = null then FieldValue.nullVal else FieldValue.i16 v)) ∧
    (∀ (null v : Int) (row : List Nat) (f : Nat), readI32 row f = some v →
       decodeField (Schema.NullableInt null) row f =
         some (if v = null then FieldValue.nullVal else FieldValue.i32 v)) ∧
    (∀ (null v : Int) (row : List Nat) (f : Nat), readI64 row f = some v →
       decodeField (Schema.NullableLong null) row f =
         some (if v = null then FieldValue.nullVal else FieldValue.i64 v)) ∧
    (∀ (null v : Nat) (row : List Nat) (f : Nat), readU8 row f = some v →
       decodeField (Schema.NullableUnsignedByte null) row f =
         some (if v = null then FieldValue.nullVal else FieldValue.u8 v)) ∧
    (∀ (null v : Int) (row : List Nat) (f : Nat), readI16 row f = some v →
       decodeField (Schema.NullableUnsignedShort null) row f =
         some (if v = null then FieldValue.nullVal else FieldValue.u16 (to_u16 v))) ∧
    (∀ (null v : Int) (row : List Nat) (f : Nat), readI32 row f = some v →
       decodeField (Schema.NullableUnsignedInt null) row f =
         some (if v = null then FieldValue.nullVal else FieldValue.u32 (to_u32 v))) ∧
    (∀ (null v : Int) (row : List Nat) (f : Nat), readI64 row f = some v →
       decodeField (Schema.NullableUnsignedLong null) row f =
         some (if v = null then FieldValue.nullVal else FieldValue.u64 (to_u64 v))) ∧
    BinTableColumnHeader.schema
        ⟨some (.J ⟨some 1, none⟩), some (-2147483648), none, none, none⟩ =
      some (SchemaOutcome.ok (Schema.NullableInt (-2147483648)) false) ∧
    decodeField (Schema.NullableInt (-2147483648)) [128, 0, 0, 0] 0 =
      some FieldValue.nullVal := by
  refine ⟨?_, ?_, ?_, ?_, ?_, ?_, ?_, ?_, by rfl, by decide⟩ <;>
    (intro null v row f hv; by_cases hvn : v = null <;> simp [decodeField, hv, hvn])



/-- Witness for C8 on a concrete non-null storage value. -/
theorem C8_tnull_storage_compare_witness :
    decodeField (Schema.NullableInt 5) [0, 0, 0, 7] 0 =
      some (if (7 : Int) = 5 then FieldValue.nullVal else FieldValue.i32 7) :=
  C8_tnull_storage_compare.2.2.1 5 7 [0, 0, 0, 7] 0 (by rfl)

/-- The check on the first keyword returns an error exactly when at least
8 bytes remain and they do not spell the expected keyword. -/
theorem check_first_keyword_err_iff (p : Bool) (bytes : List Nat) :
    (∃ e, check_first_keyword p bytes = .err e) ↔
      (8 ≤ bytes.length ∧ bytes.take 8 ≠ (if p then SIMPLE_KW else XTENSION_KW)) := by
  unfold check_first_keyword
  by_cases hlen : bytes.length < 8
  · rw [if_pos hlen]
    constructor
    · rintro ⟨e, he⟩; cases he
    · rintro ⟨h8, _⟩; omega
  · rw [if_neg hlen]
    cases p with
    | false =>
      by_cases ht : bytes.take 8 = XTENSION_KW
      · rw [if_neg (by simp), if_neg (by simp [ht])]
        constructor
        · rintro ⟨e, he⟩; cases he
        · rintro ⟨_, hne⟩; simp [ht] at hne
      · rw [if_neg (by simp), if_pos (by simp [ht])]
        constructor
        · intro _; exact ⟨by omega, by simp [ht]⟩
        · intro _; exact ⟨_, rfl⟩
    | true =>
      by_cases ht : bytes.take 8 = SIMPLE_KW
      · rw [if_neg (by simp [ht]), if_neg (by simp)]
        constructor
        · rintro ⟨e, he⟩; cases he
        · rintro ⟨_, hne⟩; simp [ht] at hne
      · rw [if_pos (by simp [ht])]
        constructor
        · intro _; exact ⟨by omega, by simp [ht]⟩
        · intro _; exact ⟨_, rfl⟩

/-- The block loop of from_slice either succeeds or panics; it never
returns an error value. -/
theorem from_slice_loop_no_err :
    ∀ (bytes : List Nat) (blocks : List (List Nat)) (e : String),
      from_slice_loop bytes blocks ≠ .err e := by
  intro bytes blocks
  induction bytes, blocks using from_slice_loop.induct with
  | case1 bytes blocks h =>
    intro e
    rw [from_slice_loop.eq_def]
    simp [h]
  | case2 bytes blocks h chunk epv hep =>
    intro e
    rw [from_slice_loop.eq_def]
    have hep2 : end_position (List.take 2880 bytes) = some epv := hep
    simp [h, hep2]
  | case3 bytes blocks h chunk remainder hep ih =>
    intro e
    rw [from_slice_loop.eq_def]
    have hep2 : end_position (List.take 2880 bytes) = none := hep
    simp [h, hep2]
    exact ih e



/-- Claim C7 (counterexample): a 100-byte input starting with the SIMPLE
keyword (a truncated first block) makes from_slice panic on the
out-of-bounds split_at(2880) instead of yielding an error item. -/
theorem C7_counterexample :
    RawHeader.from_slice true (SIMPLE_KW ++ List.replicate 92 32) = HeaderParse.panicked ∧
    ¬ ∃ e, RawHeader.from_slice true (SIMPLE_KW ++ List.replicate 92 32) =
      HeaderParse.err e := by
  have h : RawHeader.from_slice true (SIMPLE_KW ++ List.replicate 92 32) =
      HeaderParse.panicked := by
    unfold RawHeader.from_slice
    have hck : check_first_keyword true (SIMPLE_KW ++ List.replicate 92 32) =
        HeaderParse.ok () := by decide
    rw [hck]
    rw [from_slice_loop.eq_def]
    rw [if_pos (by decide)]
  refine ⟨h, ?_⟩
  rintro ⟨e, he⟩
  rw [h] at he
  cases he

/-- Claim C7 (amended): the HDU byte-level header reader returns an error
value exactly for an unexpected first keyword (at least 8 bytes present,
not spelling SIMPLE for the primary HDU or XTENSION for an extension);
a truncated block or a header whose END record is never found ends in a
panic (an out-of-bounds slice), not an error item. -/
theorem C7_from_slice_err_iff (p : Bool) (bytes : List Nat) :
    (∃ e, RawHeader.from_slice p bytes = .err e) ↔
      (8 ≤ bytes.length ∧ bytes.take 8 ≠ (if p then SIMPLE_KW else XTENSION_KW)) := by
  rw [← check_first_keyword_err_iff p bytes]
  unfold RawHeader.from_slice
  rcases hck : check_first_keyword p bytes with v | e | _
  · constructor
    · rintro ⟨e, he⟩
      exact absurd he (from_slice_loop_no_err bytes [] e)
    · rintro ⟨e, he⟩
      cases he
  · constructor
    · intro _; exact ⟨e, rfl⟩
    · intro _; exact ⟨e, rfl⟩
  · constructor
    · rintro ⟨e, he⟩; cases he
    · rintro ⟨e, he⟩; cases he

/-- Witness for C7: on an 8-byte input whose keyword is XTENSION while
SIMPLE is expected, from_slice returns an error. -/
theorem C7_from_slice_err_iff_witness :
    (∃ e, RawHeader.from_slice true XTENSION_KW = .err e) := by
  rw [C7_from_slice_err_iff true XTENSION_KW]
  constructor
  · decide
  · decide

end FitsTable
